import Mathlib

/-!
Verification of the dynamic-DNS reconciliation agent in `src/main.rs`
(simple_cloudflare_ddns). The Rust program periodically probes the public
IP, compares it per hostname against a persisted JSON state file, and
issues Cloudflare DNS-record updates when they differ.

The shallow embedding below translates the pure decision logic of the
source:
- the `serde_json::Value` state document and its `get` / index-assign
  semantics (index-assign auto-vivifies `Null` into an object and panics
  on any other non-object value, exactly as `serde_json`'s `IndexMut`);
- the startup resolution phase of `main` (apex-domain derivation, zone
  and record id lookup, the two caching maps);
- the per-cycle loop body of `main` (change detection, the unchecked
  `HashMap` indexing, state mutation on success, the end-of-cycle save);
- `get_zone_id`, `get_record_id`, `update_dns_record`, `read_last_ips`.

Network I/O and the filesystem are modelled as explicit inputs: the zone
listing, the record listing per zone, the probe result, the per-hostname
update outcome, and the state-file contents are parameters. `serde_json`
parsing (an external dependency, not repository code) is a parameter of
`read_last_ips`. A `none` result of a step models a Rust panic.
-/

set_option autoImplicit false

namespace Ddns

/-- JSON values, modelling `serde_json::Value`. Objects are association
lists of key/value pairs (first occurrence wins on lookup). -/
inductive Json where
  | null
  | bool (b : Bool)
  | num (n : Int)
  | str (s : String)
  | arr (xs : List Json)
  | obj (m : List (String × Json))

/-- First-match lookup in an object's field list, modelling
`serde_json::Map::get`. -/
def getAssoc : List (String × Json) → String → Option Json
  | [], _ => none
  | (k', v) :: rest, k => if k' = k then some v else getAssoc rest k

/-- Replace the value at a key, or append the binding if the key is
absent, modelling `serde_json::Map`'s `entry(..).or_insert` followed by
assignment. -/
def setAssoc : List (String × Json) → String → Json → List (String × Json)
  | [], k, v => [(k, v)]
  | (k', v') :: rest, k, v =>
    if k' = k then (k', v) :: rest else (k', v') :: setAssoc rest k v

/-- `Value::get` with a string index: a field lookup on objects, `None`
on every other variant (including `Null`). -/
def Json.get : Json → String → Option Json
  | .obj m, k => getAssoc m k
  | _, _ => none

/-- `Value::as_str`. -/
def Json.asStr : Json → Option String
  | .str s => some s
  | _ => none

/-- `last_ips.get(&name).and_then(|v| v.as_str())` from the loop body. -/
def jsonGetStr (v : Json) (k : String) : Option String :=
  (v.get k).bind Json.asStr

/-- Whether the value is a JSON object. -/
def Json.isObj : Json → Bool
  | .obj _ => true
  | _ => false

/-- `serde_json`'s `IndexMut` assignment `v[key] = x` for a string key:
`Null` is first replaced by an empty object, objects get the binding
inserted/replaced, and every other variant panics (`none`). -/
def Json.setKey : Json → String → Json → Option Json
  | .null, k, v => some (.obj [(k, v)])
  | .obj m, k, v => some (.obj (setAssoc m k v))
  | _, _, _ => none

/-- One entry of the `/zones` listing (`ZoneResponse.result`). -/
structure ZoneInfo where
  id : String
  name : String

/-- One entry of the `/zones/{id}/dns_records` listing
(`DnsRecordResponse.result`). -/
structure DnsRecordInfo where
  id : String
  name : String

/-- A configured record spec (`DnsRecord` in the source). -/
structure DnsRecord where
  dns_name : String
  proxied : Bool

/-- The provider's update response (`CloudflareResponse`). -/
structure CloudflareResponse where
  success : Bool
  errors : List Json

/-- The body of an update request (`DnsUpdateRequest`); `rtype` embeds
the raw-identifier field `r#type`. -/
structure DnsUpdateRequest where
  rtype : String
  name : String
  content : String
  ttl : Nat
  proxied : Bool

/-- The loop of `get_zone_id`: first zone whose `name` equals the target
domain wins; an empty pass falls through to the error naming the
domain. Network transport is modelled by passing the listing. -/
def get_zone_id : List ZoneInfo → String → Except String String
  | [], domain => .error ("Zone ID not found for domain: " ++ domain)
  | zone :: rest, domain =>
    if zone.name = domain then .ok zone.id else get_zone_id rest domain

/-- The loop of `get_record_id`: first record whose `name` equals the
full hostname wins; otherwise the error naming the hostname. -/
def get_record_id : List DnsRecordInfo → String → Except String String
  | [], dns_name => .error ("DNS record ID not found for domain: " ++ dns_name)
  | record :: rest, dns_name =>
    if record.name = dns_name then .ok record.id else get_record_id rest dns_name

/-- The request URL built by `update_dns_record`. -/
def updateUrl (zone_id record_id : String) : String :=
  "https://api.cloudflare.com/client/v4/zones/" ++ zone_id ++ "/dns_records/" ++ record_id

/-- The request body built by `update_dns_record` (`request_data`). -/
def buildUpdateRequest (ip : String) (record : DnsRecord) : DnsUpdateRequest :=
  { rtype := "A"
    name := record.dns_name
    content := ip
    ttl := 1
    proxied := record.proxied }

/-- The tail of `update_dns_record`: a parsed response with
`success == true` is `Ok(())`, anything else is the fixed error
`"Cloudflare API error"` (the `errors` array is only printed). -/
def interpretResponse (resp : CloudflareResponse) : Except String Unit :=
  if resp.success then .ok () else .error "Cloudflare API error"

/-- The outcome of one network update attempt, as seen by the caller of
`update_dns_record`: either the transport failed (a `?` early return),
or a well-formed response was parsed. -/
inductive UpdateOutcome where
  | transportError (msg : String)
  | response (resp : CloudflareResponse)

/-- The `Result` value `update_dns_record` returns for a given outcome. -/
def updateResult : UpdateOutcome → Except String Unit
  | .transportError msg => .error msg
  | .response resp => interpretResponse resp

/-- `read_last_ips`: read the state file, parse it, and fall back to the
empty JSON object on any failure. The file read is `none` when the file
is missing or unreadable; `parse` models `serde_json::from_str` (an
external dependency). -/
def read_last_ips (parse : String → Option Json) (file : Option String) : Json :=
  ((file.bind fun data => parse data).getD (Json.obj []))

/-- Rust's `str::split('.')` on the character list of a hostname:
`""` splits to `[""]`, a separator at either end yields an empty label. -/
def splitDots : List Char → List (List Char)
  | [] => [[]]
  | c :: rest =>
    if c = '.' then [] :: splitDots rest
    else
      match splitDots rest with
      | [] => [[c]]
      | h :: t => (c :: h) :: t

/-- The apex-domain derivation at the top of the startup loop of `main`:
split on dots, reject fewer than two labels, otherwise join the last two
labels with a dot. -/
def apexOf (dns_name : String) : Option String :=
  let parts := splitDots dns_name.data
  if parts.length < 2 then none
  else
    some (String.mk (parts.getD (parts.length - 2) [] ++ '.' :: parts.getD (parts.length - 1) []))

/-- What the startup loop of `main` records for one configured hostname. -/
inductive ResolveOutcome where
  /-- `domain_parts.len() < 2`: rejected before any lookup; neither map
  gains an entry. -/
  | invalidName
  /-- `get_zone_id` failed: neither map gains an entry. -/
  | zoneFailed (err : String)
  /-- `get_zone_id` succeeded but `get_record_id` failed: only
  `zone_id_map` gains an entry (the source inserts it before the record
  lookup). -/
  | recordFailed (zone_id : String) (err : String)
  /-- Both lookups succeeded: both maps gain entries. -/
  | resolved (zone_id : String) (record_id : String)

/-- One iteration of the startup resolution loop of `main` for one
configured hostname, with the provider's zone listing and per-zone
record listing passed in place of the network. -/
def resolveStep (zones : List ZoneInfo) (recordsOf : String → List DnsRecordInfo)
    (dns_name : String) : ResolveOutcome :=
  match apexOf dns_name with
  | none => .invalidName
  | some domain =>
    match get_zone_id zones domain with
    | .error e => .zoneFailed e
    | .ok zone_id =>
      match get_record_id (recordsOf zone_id) dns_name with
      | .error e => .recordFailed zone_id e
      | .ok record_id => .resolved zone_id record_id

/-- First-match lookup in a string/string association list, modelling the
two `HashMap<String, String>` caches (`zone_id_map`, `record_id_map`). -/
def lookupA : List (String × String) → String → Option String
  | [], _ => none
  | (k', v) :: rest, k => if k' = k then some v else lookupA rest k

/-- One iteration of the per-hostname loop inside a cycle of `main`:
compare the persisted IP with the probe; when they differ, index both
caches (an absent key is the `HashMap` index panic, modelled as `none`),
attempt the update, and on success assign `last_ips[name] = ip` (which
itself panics on a non-object, non-null state). Returns the new state
and whether `update_dns_record` was invoked. -/
def processRecord (zoneMap recordMap : List (String × String))
    (upd : String → UpdateOutcome) (currentIp : String) (state : Json)
    (record : DnsRecord) : Option (Json × Bool) :=
  let lastIp := jsonGetStr state record.dns_name
  if lastIp = some currentIp then
    some (state, false)
  else
    match lookupA zoneMap record.dns_name, lookupA recordMap record.dns_name with
    | some _, some _ =>
      match updateResult (upd record.dns_name) with
      | .ok _ => (state.setKey record.dns_name (.str currentIp)).map (fun st => (st, true))
      | .error _ => some (state, true)
    | _, _ => none

/-- The accumulated result of the per-hostname loop: the state document
and the hostnames for which `update_dns_record` was invoked, in order. -/
structure CycleAcc where
  state : Json
  invoked : List String

/-- The per-hostname loop of one cycle, over the configured records in
order; a panic (`none`) aborts the whole process. -/
def runRecords (zoneMap recordMap : List (String × String))
    (upd : String → UpdateOutcome) (currentIp : String) :
    List DnsRecord → Json → List String → Option CycleAcc
  | [], state, acc => some ⟨state, acc⟩
  | record :: rest, state, acc =>
    match processRecord zoneMap recordMap upd currentIp state record with
    | none => none
    | some (state', invoked) =>
      runRecords zoneMap recordMap upd currentIp rest state'
        (if invoked then acc ++ [record.dns_name] else acc)

/-- The observable effect of one full polling cycle of `main`. -/
structure CycleResult where
  state : Json
  invoked : List String
  saved : Bool

/-- One iteration of the `loop` in `main`: a failed probe only logs and
falls through to the sleep; a successful probe runs the per-hostname
loop and then `save_last_ips` once. `probe` is `get_public_ip`'s result;
`none` from the record loop is a panic. -/
def runCycle (records : List DnsRecord) (zoneMap recordMap : List (String × String))
    (upd : String → UpdateOutcome) (probe : Option String) (state : Json) :
    Option CycleResult :=
  match probe with
  | none => some ⟨state, [], false⟩
  | some currentIp =>
    (runRecords zoneMap recordMap upd currentIp records state []).map
      (fun acc => ⟨acc.state, acc.invoked, true⟩)

/-- Substring test on character lists (used to state that an error
message does not mention the provider's reported details). -/
def hasSubstr : List Char → List Char → Bool
  | [], pat => pat.isEmpty
  | s@(_ :: rest), pat => List.isPrefixOf pat s || hasSubstr rest pat

/-- `HashMap::insert`: replace the value at an existing key, otherwise
add the binding. -/
def insertA : List (String × String) → String → String → List (String × String)
  | [], k, v => [(k, v)]
  | (k', v') :: rest, k, v =>
    if k' = k then (k', v) :: rest else (k', v') :: insertA rest k v

/-- The startup resolution loop of `main` over the configured records in
order, accumulating `zone_id_map` and `record_id_map`. A record whose
zone lookup succeeded but whose record lookup failed still leaves its
zone-map entry behind, exactly as in the source. -/
def buildMapsFrom (zones : List ZoneInfo) (recordsOf : String → List DnsRecordInfo) :
    List DnsRecord → List (String × String) → List (String × String) →
    List (String × String) × List (String × String)
  | [], zoneMap, recordMap => (zoneMap, recordMap)
  | record :: rest, zoneMap, recordMap =>
    match resolveStep zones recordsOf record.dns_name with
    | .invalidName => buildMapsFrom zones recordsOf rest zoneMap recordMap
    | .zoneFailed _ => buildMapsFrom zones recordsOf rest zoneMap recordMap
    | .recordFailed zone_id _ =>
      buildMapsFrom zones recordsOf rest (insertA zoneMap record.dns_name zone_id) recordMap
    | .resolved zone_id record_id =>
      buildMapsFrom zones recordsOf rest (insertA zoneMap record.dns_name zone_id)
        (insertA recordMap record.dns_name record_id)

/-- The two caching maps as they stand when the startup loop finishes. -/
def buildMaps (zones : List ZoneInfo) (recordsOf : String → List DnsRecordInfo)
    (records : List DnsRecord) : List (String × String) × List (String × String) :=
  buildMapsFrom zones recordsOf records [] []

/-! ## Basic lemmas about the JSON document model -/

theorem getAssoc_setAssoc_self (m : List (String × Json)) (k : String) (v : Json) :
    getAssoc (setAssoc m k v) k = some v := by
  induction m with
  | nil => simp [setAssoc, getAssoc]
  | cons p rest ih =>
    obtain ⟨k', v'⟩ := p
    by_cases h : k' = k
    · simp [setAssoc, getAssoc, h]
    · simp [setAssoc, getAssoc, h, ih]

theorem getAssoc_setAssoc_ne (m : List (String × Json)) (k k' : String) (v : Json)
    (hne : k' ≠ k) : getAssoc (setAssoc m k v) k' = getAssoc m k' := by
  induction m with
  | nil => simp [setAssoc, getAssoc, hne.symm]
  | cons p rest ih =>
    obtain ⟨k0, v0⟩ := p
    by_cases h : k0 = k
    · subst h
      simp [setAssoc, getAssoc, hne.symm]
    · simp [setAssoc, getAssoc, h, ih]

theorem Json.isObj_iff (v : Json) : v.isObj = true ↔ ∃ m, v = .obj m := by
  cases v <;> simp [Json.isObj]

theorem jsonGetStr_setObj_self (m : List (String × Json)) (k ip : String) :
    jsonGetStr (Json.obj (setAssoc m k (.str ip))) k = some ip := by
  simp [jsonGetStr, Json.get, getAssoc_setAssoc_self, Json.asStr]

theorem jsonGetStr_setObj_ne (m : List (String × Json)) (k k' : String) (v : Json)
    (hne : k' ≠ k) :
    jsonGetStr (Json.obj (setAssoc m k v)) k' = jsonGetStr (Json.obj m) k' := by
  simp [jsonGetStr, Json.get, getAssoc_setAssoc_ne m k k' v hne]

theorem jsonGetStr_empty (k : String) : jsonGetStr (Json.obj []) k = none := by
  simp [jsonGetStr, Json.get, getAssoc]

/-! ## Lemmas about hostname splitting -/

theorem splitDots_ne_nil (l : List Char) : splitDots l ≠ [] := by
  cases l with
  | nil => simp [splitDots]
  | cons c rest =>
    by_cases hc : c = '.'
    · simp [splitDots, hc]
    · cases h : splitDots rest <;> simp [splitDots, hc, h]

theorem dot_not_mem_splitDots (l : List Char) : ∀ x ∈ splitDots l, '.' ∉ x := by
  induction l with
  | nil =>
    intro x hx
    simp [splitDots] at hx
    simp [hx]
  | cons c rest ih =>
    intro x hx
    by_cases hc : c = '.'
    · simp [splitDots, hc] at hx
      rcases hx with rfl | hx
      · simp
      · exact ih x hx
    · rcases h : splitDots rest with _ | ⟨hd, tl⟩
      · exact absurd h (splitDots_ne_nil rest)
      · simp [splitDots, hc, h] at hx
        rcases hx with rfl | hx
        · have hhd : '.' ∉ hd := ih hd (by rw [h]; exact List.mem_cons_self _ _)
          simp [List.mem_cons, hhd]
          exact fun e => hc e.symm
        · exact ih x (by rw [h]; exact List.mem_cons_of_mem _ hx)

theorem splitDots_of_no_dot (l : List Char) (h : '.' ∉ l) : splitDots l = [l] := by
  induction l with
  | nil => rfl
  | cons c rest ih =>
    have hc : c ≠ '.' := fun e => h (e ▸ List.mem_cons_self c rest)
    have hr : '.' ∉ rest := fun m => h (List.mem_cons_of_mem _ m)
    simp [splitDots, hc, ih hr]

theorem splitDots_append_dot (x r : List Char) (h : '.' ∉ x) :
    splitDots (x ++ '.' :: r) = x :: splitDots r := by
  induction x with
  | nil => simp [splitDots]
  | cons c xs ih =>
    have hc : c ≠ '.' := fun e => h (e ▸ List.mem_cons_self c xs)
    have hx : '.' ∉ xs := fun m => h (List.mem_cons_of_mem _ m)
    simp [splitDots, hc, ih hx]

/-! ## First-match characterization of zone and record resolution -/

theorem get_zone_id_ok_iff (zones : List ZoneInfo) (domain id : String) :
    get_zone_id zones domain = .ok id ↔
      ∃ pre z post, zones = pre ++ z :: post ∧ z.name = domain ∧ z.id = id ∧
        ∀ z' ∈ pre, z'.name ≠ domain := by
  induction zones with
  | nil =>
    constructor
    · intro h
      exact absurd h (by simp [get_zone_id])
    · rintro ⟨pre, z, post, h, -⟩
      cases pre <;> simp_all
  | cons z0 rest ih =>
    by_cases h0 : z0.name = domain
    · simp only [get_zone_id, if_pos h0]
      constructor
      · intro h
        have hid : z0.id = id := by
          simpa using h
        exact ⟨[], z0, rest, rfl, h0, hid, by simp⟩
      · rintro ⟨pre, z, post, heq, hname, hid, hpre⟩
        cases pre with
        | nil =>
          simp only [List.nil_append, List.cons.injEq] at heq
          obtain ⟨rfl, rfl⟩ := heq
          rw [hid]
        | cons p pre' =>
          simp only [List.cons_append, List.cons.injEq] at heq
          obtain ⟨rfl, -⟩ := heq
          exact absurd h0 (hpre z0 (List.mem_cons_self _ _))
    · simp only [get_zone_id, if_neg h0]
      rw [ih]
      constructor
      · rintro ⟨pre, z, post, rfl, hname, hid, hpre⟩
        refine ⟨z0 :: pre, z, post, rfl, hname, hid, ?_⟩
        intro z' hz'
        rcases List.mem_cons.mp hz' with rfl | hz'
        · exact h0
        · exact hpre z' hz'
      · rintro ⟨pre, z, post, heq, hname, hid, hpre⟩
        cases pre with
        | nil =>
          simp only [List.nil_append, List.cons.injEq] at heq
          obtain ⟨rfl, rfl⟩ := heq
          exact absurd hname h0
        | cons p pre' =>
          simp only [List.cons_append, List.cons.injEq] at heq
          obtain ⟨rfl, heq'⟩ := heq
          exact ⟨pre', z, post, heq', hname, hid,
            fun z' hz' => hpre z' (List.mem_cons_of_mem _ hz')⟩

theorem get_zone_id_not_found (zones : List ZoneInfo) (domain : String)
    (h : ∀ z ∈ zones, z.name ≠ domain) :
    get_zone_id zones domain = .error ("Zone ID not found for domain: " ++ domain) := by
  induction zones with
  | nil => rfl
  | cons z0 rest ih =>
    have h0 : z0.name ≠ domain := h z0 (List.mem_cons_self _ _)
    simp only [get_zone_id, if_neg h0]
    exact ih (fun z hz => h z (List.mem_cons_of_mem _ hz))

theorem get_record_id_ok_iff (records : List DnsRecordInfo) (dns_name id : String) :
    get_record_id records dns_name = .ok id ↔
      ∃ pre r post, records = pre ++ r :: post ∧ r.name = dns_name ∧ r.id = id ∧
        ∀ r' ∈ pre, r'.name ≠ dns_name := by
  induction records with
  | nil =>
    constructor
    · intro h
      exact absurd h (by simp [get_record_id])
    · rintro ⟨pre, r, post, h, -⟩
      cases pre <;> simp_all
  | cons r0 rest ih =>
    by_cases h0 : r0.name = dns_name
    · simp only [get_record_id, if_pos h0]
      constructor
      · intro h
        have hid : r0.id = id := by
          simpa using h
        exact ⟨[], r0, rest, rfl, h0, hid, by simp⟩
      · rintro ⟨pre, r, post, heq, hname, hid, hpre⟩
        cases pre with
        | nil =>
          simp only [List.nil_append, List.cons.injEq] at heq
          obtain ⟨rfl, rfl⟩ := heq
          rw [hid]
        | cons p pre' =>
          simp only [List.cons_append, List.cons.injEq] at heq
          obtain ⟨rfl, -⟩ := heq
          exact absurd h0 (hpre r0 (List.mem_cons_self _ _))
    · simp only [get_record_id, if_neg h0]
      rw [ih]
      constructor
      · rintro ⟨pre, r, post, rfl, hname, hid, hpre⟩
        refine ⟨r0 :: pre, r, post, rfl, hname, hid, ?_⟩
        intro r' hr'
        rcases List.mem_cons.mp hr' with rfl | hr'
        · exact h0
        · exact hpre r' hr'
      · rintro ⟨pre, r, post, heq, hname, hid, hpre⟩
        cases pre with
        | nil =>
          simp only [List.nil_append, List.cons.injEq] at heq
          obtain ⟨rfl, rfl⟩ := heq
          exact absurd hname h0
        | cons p pre' =>
          simp only [List.cons_append, List.cons.injEq] at heq
          obtain ⟨rfl, heq'⟩ := heq
          exact ⟨pre', r, post, heq', hname, hid,
            fun r' hr' => hpre r' (List.mem_cons_of_mem _ hr')⟩

theorem get_record_id_not_found (records : List DnsRecordInfo) (dns_name : String)
    (h : ∀ r ∈ records, r.name ≠ dns_name) :
    get_record_id records dns_name =
      .error ("DNS record ID not found for domain: " ++ dns_name) := by
  induction records with
  | nil => rfl
  | cons r0 rest ih =>
    have h0 : r0.name ≠ dns_name := h r0 (List.mem_cons_self _ _)
    simp only [get_record_id, if_neg h0]
    exact ih (fun r hr => h r (List.mem_cons_of_mem _ hr))

/-! ## Case lemmas for one loop iteration -/

theorem processRecord_same (zoneMap recordMap : List (String × String))
    (upd : String → UpdateOutcome) (ip : String) (st : Json) (r : DnsRecord)
    (h : jsonGetStr st r.dns_name = some ip) :
    processRecord zoneMap recordMap upd ip st r = some (st, false) := by
  simp [processRecord, h]

theorem processRecord_diff_ok (zoneMap recordMap : List (String × String))
    (upd : String → UpdateOutcome) (ip : String) (st : Json) (r : DnsRecord)
    (zid rid : String)
    (h : jsonGetStr st r.dns_name ≠ some ip)
    (hz : lookupA zoneMap r.dns_name = some zid)
    (hr : lookupA recordMap r.dns_name = some rid)
    (hok : updateResult (upd r.dns_name) = .ok ()) :
    processRecord zoneMap recordMap upd ip st r =
      (st.setKey r.dns_name (.str ip)).map (fun st' => (st', true)) := by
  simp [processRecord, h, hz, hr, hok]

theorem processRecord_diff_err (zoneMap recordMap : List (String × String))
    (upd : String → UpdateOutcome) (ip : String) (st : Json) (r : DnsRecord)
    (zid rid : String) (msg : String)
    (h : jsonGetStr st r.dns_name ≠ some ip)
    (hz : lookupA zoneMap r.dns_name = some zid)
    (hr : lookupA recordMap r.dns_name = some rid)
    (herr : updateResult (upd r.dns_name) = .error msg) :
    processRecord zoneMap recordMap upd ip st r = some (st, true) := by
  simp [processRecord, h, hz, hr, herr]

/-- The per-hostname loop, started on an object state under the
invariant that every hostname whose persisted entry already equals the
probed IP is among the already-invoked ones, completes without panic
(given cached ids for every record) and ends with every configured
hostname having been passed to the update client at least once. -/
theorem runRecords_covers (zoneMap recordMap : List (String × String))
    (upd : String → UpdateOutcome) (ip : String) :
    ∀ (records : List DnsRecord) (st : Json) (acc : List String),
    st.isObj = true →
    (∀ r ∈ records,
      (lookupA zoneMap r.dns_name).isSome = true ∧
      (lookupA recordMap r.dns_name).isSome = true) →
    (∀ n, jsonGetStr st n = some ip → n ∈ acc) →
    ∃ res, runRecords zoneMap recordMap upd ip records st acc = some res ∧
      (∀ n ∈ acc, n ∈ res.invoked) ∧
      ∀ r ∈ records, r.dns_name ∈ res.invoked := by
  intro records
  induction records with
  | nil =>
    intro st acc _ _ _
    exact ⟨⟨st, acc⟩, rfl, fun n hn => hn, by simp⟩
  | cons r rest ih =>
    intro st acc hobj hmaps hinv
    obtain ⟨m, rfl⟩ := (Json.isObj_iff st).mp hobj
    have hmr := hmaps r (List.mem_cons_self _ _)
    obtain ⟨zid, hz⟩ := Option.isSome_iff_exists.mp hmr.1
    obtain ⟨rid, hrr⟩ := Option.isSome_iff_exists.mp hmr.2
    have hmaps' : ∀ r' ∈ rest,
        (lookupA zoneMap r'.dns_name).isSome = true ∧
        (lookupA recordMap r'.dns_name).isSome = true :=
      fun r' hr' => hmaps r' (List.mem_cons_of_mem _ hr')
    by_cases hip : jsonGetStr (Json.obj m) r.dns_name = some ip
    · have hstep := processRecord_same zoneMap recordMap upd ip (Json.obj m) r hip
      obtain ⟨res, hrun, haccsub, hcov⟩ := ih (Json.obj m) acc hobj hmaps' hinv
      refine ⟨res, ?_, haccsub, ?_⟩
      · simp [runRecords, hstep, hrun]
      · intro r' hr'
        rcases List.mem_cons.mp hr' with rfl | hr'
        · exact haccsub _ (hinv _ hip)
        · exact hcov r' hr'
    · cases hu : updateResult (upd r.dns_name) with
      | ok u =>
        obtain ⟨⟩ := u
        have hstep := processRecord_diff_ok zoneMap recordMap upd ip (Json.obj m) r
          zid rid hip hz hrr hu
        rw [Json.setKey] at hstep
        have hinv' : ∀ n,
            jsonGetStr (Json.obj (setAssoc m r.dns_name (.str ip))) n = some ip →
            n ∈ acc ++ [r.dns_name] := by
          intro n hn
          by_cases hn' : n = r.dns_name
          · simp [hn']
          · rw [jsonGetStr_setObj_ne m r.dns_name n _ hn'] at hn
            exact List.mem_append_left _ (hinv n hn)
        obtain ⟨res, hrun, haccsub, hcov⟩ :=
          ih (Json.obj (setAssoc m r.dns_name (.str ip))) (acc ++ [r.dns_name])
            (by simp [Json.isObj]) hmaps' hinv'
        refine ⟨res, ?_, ?_, ?_⟩
        · simp [runRecords, hstep, hrun]
        · exact fun n hn => haccsub n (List.mem_append_left _ hn)
        · intro r' hr'
          rcases List.mem_cons.mp hr' with rfl | hr'
          · exact haccsub _ (List.mem_append_right _ (List.mem_cons_self _ _))
          · exact hcov r' hr'
      | error msg =>
        have hstep := processRecord_diff_err zoneMap recordMap upd ip (Json.obj m) r
          zid rid msg hip hz hrr hu
        have hinv' : ∀ n, jsonGetStr (Json.obj m) n = some ip →
            n ∈ acc ++ [r.dns_name] :=
          fun n hn => List.mem_append_left _ (hinv n hn)
        obtain ⟨res, hrun, haccsub, hcov⟩ :=
          ih (Json.obj m) (acc ++ [r.dns_name]) hobj hmaps' hinv'
        refine ⟨res, ?_, ?_, ?_⟩
        · simp [runRecords, hstep, hrun]
        · exact fun n hn => haccsub n (List.mem_append_left _ hn)
        · intro r' hr'
          rcases List.mem_cons.mp hr' with rfl | hr'
          · exact haccsub _ (List.mem_append_right _ (List.mem_cons_self _ _))
          · exact hcov r' hr'

/-! ## Claim theorems -/

/-- C1: the spec requires that a hostname whose zone or record
resolution failed at startup is never handed to the update client and
that the loop continues with the remaining hostnames without error. The
code instead indexes `record_id_map` unconditionally; with
`bad.example.com` configured on a provider that has its zone but not its
record, the startup loop leaves `record_id_map` without that key, and
the first cycle whose probe differs from the persisted IP panics
(`none`), never reaching the fully resolved `ok.example.com` that
follows it in the configuration. -/
theorem ddns_unresolved_hostname_panics :
    buildMaps [⟨"z1", "example.com"⟩]
        (fun zone_id => if zone_id = "z1" then [⟨"r1", "ok.example.com"⟩] else [])
        [⟨"bad.example.com", false⟩, ⟨"ok.example.com", false⟩] =
      ([("bad.example.com", "z1"), ("ok.example.com", "z1")],
       [("ok.example.com", "r1")]) ∧
    runCycle [⟨"bad.example.com", false⟩, ⟨"ok.example.com", false⟩]
        [("bad.example.com", "z1"), ("ok.example.com", "z1")]
        [("ok.example.com", "r1")]
        (fun _ => .response ⟨true, []⟩) (some "1.2.3.4") (Json.obj []) = none :=
  ⟨rfl, rfl⟩

/-- C2: within a cycle, a hostname whose ids were resolved is passed to
the update client exactly when its persisted IP differs from (or is
absent for) the probed IP; after a successful update its persisted entry
equals the probed IP, and re-evaluating the same hostname at the same
probed IP issues no update. -/
theorem ddns_update_iff_ip_differs (zoneMap recordMap : List (String × String))
    (upd : String → UpdateOutcome) (ip : String) (st : Json) (r : DnsRecord)
    (hz : (lookupA zoneMap r.dns_name).isSome = true)
    (hr : (lookupA recordMap r.dns_name).isSome = true)
    (hobj : st.isObj = true) :
    ∃ st' invoked,
      processRecord zoneMap recordMap upd ip st r = some (st', invoked) ∧
      (invoked = true ↔ jsonGetStr st r.dns_name ≠ some ip) ∧
      (updateResult (upd r.dns_name) = .ok () → invoked = true →
        jsonGetStr st' r.dns_name = some ip ∧
        processRecord zoneMap recordMap upd ip st' r = some (st', false)) := by
  obtain ⟨m, rfl⟩ := (Json.isObj_iff st).mp hobj
  obtain ⟨zid, hz'⟩ := Option.isSome_iff_exists.mp hz
  obtain ⟨rid, hr'⟩ := Option.isSome_iff_exists.mp hr
  by_cases hip : jsonGetStr (Json.obj m) r.dns_name = some ip
  · refine ⟨Json.obj m, false, processRecord_same _ _ _ _ _ _ hip, by simp [hip], ?_⟩
    intro _ h
    simp at h
  · cases hu : updateResult (upd r.dns_name) with
    | ok u =>
      obtain ⟨⟩ := u
      have hstep := processRecord_diff_ok _ _ _ _ _ _ zid rid hip hz' hr' hu
      rw [Json.setKey] at hstep
      refine ⟨Json.obj (setAssoc m r.dns_name (.str ip)), true,
        by simpa using hstep, by simp [hip], ?_⟩
      intro _ _
      have hget := jsonGetStr_setObj_self m r.dns_name ip
      exact ⟨hget, processRecord_same _ _ _ _ _ _ hget⟩
    | error msg =>
      refine ⟨Json.obj m, true,
        processRecord_diff_err _ _ _ _ _ _ zid rid msg hip hz' hr' hu,
        by simp [hip], ?_⟩
      intro hok _
      simp at hok

/-- Witness for C2 at a concrete fresh hostname whose update succeeds. -/
theorem ddns_update_iff_ip_differs_witness :
    ∃ st' invoked,
      processRecord [("home.example.com", "z1")] [("home.example.com", "r1")]
          (fun _ => .response ⟨true, []⟩) "1.2.3.4" (Json.obj [])
          ⟨"home.example.com", false⟩ = some (st', invoked) ∧
      (invoked = true ↔
        jsonGetStr (Json.obj [])
          (DnsRecord.mk "home.example.com" false).dns_name ≠ some "1.2.3.4") ∧
      (updateResult ((fun _ => UpdateOutcome.response ⟨true, []⟩)
          (DnsRecord.mk "home.example.com" false).dns_name) = .ok () →
        invoked = true →
        jsonGetStr st' (DnsRecord.mk "home.example.com" false).dns_name =
          some "1.2.3.4" ∧
        processRecord [("home.example.com", "z1")] [("home.example.com", "r1")]
          (fun _ => .response ⟨true, []⟩) "1.2.3.4" st'
          ⟨"home.example.com", false⟩ = some (st', false)) :=
  ddns_update_iff_ip_differs [("home.example.com", "z1")]
    [("home.example.com", "r1")] (fun _ => .response ⟨true, []⟩) "1.2.3.4"
    (Json.obj []) ⟨"home.example.com", false⟩ rfl rfl rfl

/-- C3: when the update for a hostname fails (transport failure or a
well-formed response with `success == false`, both of which surface as
an `Except.error` from `update_dns_record`), the persisted state is
returned exactly unchanged, and a subsequent cycle at the same probed IP
invokes the update client for that hostname again, whatever that cycle's
network outcome. -/
theorem ddns_failed_update_retries (zoneMap recordMap : List (String × String))
    (upd : String → UpdateOutcome) (ip : String) (st : Json) (r : DnsRecord)
    (msg : String)
    (hz : (lookupA zoneMap r.dns_name).isSome = true)
    (hr : (lookupA recordMap r.dns_name).isSome = true)
    (hobj : st.isObj = true)
    (hdiff : jsonGetStr st r.dns_name ≠ some ip)
    (herr : updateResult (upd r.dns_name) = .error msg) :
    processRecord zoneMap recordMap upd ip st r = some (st, true) ∧
    ∀ upd' : String → UpdateOutcome, ∃ st',
      processRecord zoneMap recordMap upd' ip st r = some (st', true) := by
  obtain ⟨zid, hz'⟩ := Option.isSome_iff_exists.mp hz
  obtain ⟨rid, hr'⟩ := Option.isSome_iff_exists.mp hr
  refine ⟨processRecord_diff_err _ _ _ _ _ _ zid rid msg hdiff hz' hr' herr, ?_⟩
  intro upd'
  cases hu : updateResult (upd' r.dns_name) with
  | ok u =>
    obtain ⟨⟩ := u
    obtain ⟨m, rfl⟩ := (Json.isObj_iff st).mp hobj
    have hstep := processRecord_diff_ok _ _ _ _ _ _ zid rid hdiff hz' hr' hu
    rw [Json.setKey] at hstep
    exact ⟨_, by simpa using hstep⟩
  | error msg' =>
    exact ⟨st, processRecord_diff_err _ _ _ _ _ _ zid rid msg' hdiff hz' hr' hu⟩

/-- Witness for C3 at a concrete hostname whose provider reports
`success == false`. -/
theorem ddns_failed_update_retries_witness :
    processRecord [("home.example.com", "z1")] [("home.example.com", "r1")]
        (fun _ => .response ⟨false, [Json.str "boom"]⟩) "1.2.3.4"
        (Json.obj [("home.example.com", .str "5.6.7.8")])
        ⟨"home.example.com", false⟩ =
      some (Json.obj [("home.example.com", .str "5.6.7.8")], true) ∧
    ∀ upd' : String → UpdateOutcome, ∃ st',
      processRecord [("home.example.com", "z1")] [("home.example.com", "r1")]
        upd' "1.2.3.4" (Json.obj [("home.example.com", .str "5.6.7.8")])
        ⟨"home.example.com", false⟩ = some (st', true) :=
  ddns_failed_update_retries [("home.example.com", "z1")]
    [("home.example.com", "r1")] (fun _ => .response ⟨false, [Json.str "boom"]⟩)
    "1.2.3.4" (Json.obj [("home.example.com", .str "5.6.7.8")])
    ⟨"home.example.com", false⟩ "Cloudflare API error" rfl rfl rfl (by decide) rfl

/-- C4: `read_last_ips` substitutes the empty JSON object whenever the
file read or the parse fails, and a cycle started on the empty object
with a successful probe ends with the state saved and with every
configured (and resolved) hostname having been passed to the update
client. -/
theorem ddns_empty_state_updates_all :
    (∀ (parse : String → Option Json) (file : Option String),
      (file.bind fun data => parse data) = none →
      read_last_ips parse file = Json.obj []) ∧
    ∀ (records : List DnsRecord) (zoneMap recordMap : List (String × String))
      (upd : String → UpdateOutcome) (ip : String),
      (∀ r ∈ records,
        (lookupA zoneMap r.dns_name).isSome = true ∧
        (lookupA recordMap r.dns_name).isSome = true) →
      ∃ res, runCycle records zoneMap recordMap upd (some ip) (Json.obj []) =
          some res ∧
        res.saved = true ∧ ∀ r ∈ records, r.dns_name ∈ res.invoked := by
  constructor
  · intro parse file h
    simp [read_last_ips, h]
  · intro records zoneMap recordMap upd ip hmaps
    obtain ⟨acc, hrun, -, hcov⟩ :=
      runRecords_covers zoneMap recordMap upd ip records (Json.obj []) [] rfl hmaps
        (fun n hn => by simp [jsonGetStr_empty] at hn)
    exact ⟨⟨acc.state, acc.invoked, true⟩, by simp [runCycle, hrun], rfl, hcov⟩

/-- Witness for C4: an unparsable file yields the empty object, and a
first cycle from the empty object updates the one configured hostname. -/
theorem ddns_empty_state_updates_all_witness :
    read_last_ips (fun _ => none) (some "not json") = Json.obj [] ∧
    ∃ res, runCycle [⟨"home.example.com", false⟩] [("home.example.com", "z1")]
        [("home.example.com", "r1")] (fun _ => .response ⟨true, []⟩)
        (some "1.2.3.4") (Json.obj []) = some res ∧
      res.saved = true ∧
      ∀ r ∈ [(⟨"home.example.com", false⟩ : DnsRecord)], r.dns_name ∈ res.invoked :=
  ⟨ddns_empty_state_updates_all.1 (fun _ => none) (some "not json") rfl,
   ddns_empty_state_updates_all.2 [⟨"home.example.com", false⟩]
     [("home.example.com", "z1")] [("home.example.com", "r1")]
     (fun _ => .response ⟨true, []⟩) "1.2.3.4"
     (by
       intro r hr
       simp only [List.mem_singleton] at hr
       subst hr
       exact ⟨rfl, rfl⟩)⟩

/-- C5: a cycle whose probe fails changes nothing: no hostname is passed
to the update client, the state document is returned unchanged, and the
save flag is off; consequently the next cycle (the retry after the
interval) behaves exactly as if run directly on the original state. -/
theorem ddns_probe_failure_skips_cycle (records : List DnsRecord)
    (zoneMap recordMap : List (String × String)) (upd : String → UpdateOutcome)
    (st : Json) :
    runCycle records zoneMap recordMap upd none st = some ⟨st, [], false⟩ ∧
    ∀ (upd' : String → UpdateOutcome) (probe : Option String),
      ((runCycle records zoneMap recordMap upd none st).bind fun res =>
        runCycle records zoneMap recordMap upd' probe res.state) =
      runCycle records zoneMap recordMap upd' probe st :=
  ⟨rfl, fun _ _ => rfl⟩

/-- C6: zone resolution returns the id of the first listed zone whose
name exactly matches the target domain and otherwise fails with the
error naming the domain; record resolution does the same over the zone's
record listing against the full hostname. -/
theorem ddns_resolution_first_exact_match :
    (∀ (zones : List ZoneInfo) (domain : String),
      ((∀ z ∈ zones, z.name ≠ domain) →
        get_zone_id zones domain =
          .error ("Zone ID not found for domain: " ++ domain)) ∧
      ∀ id, get_zone_id zones domain = .ok id ↔
        ∃ pre z post, zones = pre ++ z :: post ∧ z.name = domain ∧ z.id = id ∧
          ∀ z' ∈ pre, z'.name ≠ domain) ∧
    ∀ (records : List DnsRecordInfo) (dns_name : String),
      ((∀ r ∈ records, r.name ≠ dns_name) →
        get_record_id records dns_name =
          .error ("DNS record ID not found for domain: " ++ dns_name)) ∧
      ∀ id, get_record_id records dns_name = .ok id ↔
        ∃ pre r post, records = pre ++ r :: post ∧ r.name = dns_name ∧ r.id = id ∧
          ∀ r' ∈ pre, r'.name ≠ dns_name :=
  ⟨fun zones domain => ⟨get_zone_id_not_found zones domain,
      fun id => get_zone_id_ok_iff zones domain id⟩,
   fun records dns_name => ⟨get_record_id_not_found records dns_name,
      fun id => get_record_id_ok_iff records dns_name id⟩⟩

/-- Witness for C6: an exact match returns the first id, a miss fails
naming the domain, and record lookup matches the full hostname. -/
theorem ddns_resolution_first_exact_match_witness :
    get_zone_id [⟨"z1", "example.com"⟩] "example.com" = .ok "z1" ∧
    get_zone_id [⟨"z1", "example.com"⟩] "other.com" =
      .error ("Zone ID not found for domain: " ++ "other.com") ∧
    get_record_id [⟨"r1", "home.example.com"⟩] "home.example.com" = .ok "r1" :=
  ⟨((ddns_resolution_first_exact_match.1 [⟨"z1", "example.com"⟩] "example.com").2
        "z1").mpr
      ⟨[], ⟨"z1", "example.com"⟩, [], rfl, rfl, rfl, by simp⟩,
   (ddns_resolution_first_exact_match.1 [⟨"z1", "example.com"⟩] "other.com").1
      (by
        intro z hz
        simp only [List.mem_singleton] at hz
        subst hz
        decide),
   ((ddns_resolution_first_exact_match.2 [⟨"r1", "home.example.com"⟩]
        "home.example.com").2 "r1").mpr
      ⟨[], ⟨"r1", "home.example.com"⟩, [], rfl, rfl, rfl, by simp⟩⟩

/-- C7: the apex domain handed to zone resolution is exactly the last
two dot-separated labels of the hostname joined by a dot
(`home.example.com` and `example.com` both yield `example.com`), and a
hostname with fewer than two labels is marked invalid without any
resolution being attempted (the outcome is independent of the provider's
listings). -/
theorem ddns_apex_last_two_labels :
    apexOf "home.example.com" = some "example.com" ∧
    apexOf "example.com" = some "example.com" ∧
    (∀ (zones : List ZoneInfo) (recordsOf : String → List DnsRecordInfo)
       (name : String),
      (splitDots name.data).length < 2 →
      resolveStep zones recordsOf name = .invalidName) ∧
    ∀ name : String, 2 ≤ (splitDots name.data).length →
      ∃ apex, apexOf name = some apex ∧
        splitDots apex.data =
          [(splitDots name.data).getD ((splitDots name.data).length - 2) [],
           (splitDots name.data).getD ((splitDots name.data).length - 1) []] := by
  refine ⟨rfl, rfl, ?_, ?_⟩
  · intro zones recordsOf name h
    have hnone : apexOf name = none := by
      simp [apexOf, h]
    simp [resolveStep, hnone]
  · intro name h
    have hlen : ¬ (splitDots name.data).length < 2 := not_lt.mpr h
    have h2 : (splitDots name.data).length - 2 < (splitDots name.data).length := by
      omega
    have h1 : (splitDots name.data).length - 1 < (splitDots name.data).length := by
      omega
    have ha : (splitDots name.data).getD ((splitDots name.data).length - 2) [] ∈
        splitDots name.data := by
      simp [List.getD_eq_getElem?_getD, List.getElem?_eq_getElem h2]
    have hb : (splitDots name.data).getD ((splitDots name.data).length - 1) [] ∈
        splitDots name.data := by
      simp [List.getD_eq_getElem?_getD, List.getElem?_eq_getElem h1]
    have hadot := dot_not_mem_splitDots name.data _ ha
    have hbdot := dot_not_mem_splitDots name.data _ hb
    refine ⟨String.mk
      ((splitDots name.data).getD ((splitDots name.data).length - 2) [] ++
        '.' :: (splitDots name.data).getD ((splitDots name.data).length - 1) []),
      ?_, ?_⟩
    · simp [apexOf, hlen]
    · show splitDots
        ((splitDots name.data).getD ((splitDots name.data).length - 2) [] ++
          '.' :: (splitDots name.data).getD ((splitDots name.data).length - 1) []) = _
      rw [splitDots_append_dot _ _ hadot, splitDots_of_no_dot _ hbdot]

/-- Witness for C7: a single-label hostname is rejected independently of
the listings, and `home.example.com` yields an apex splitting into its
last two labels. -/
theorem ddns_apex_last_two_labels_witness :
    resolveStep [] (fun _ => []) "localhost" = .invalidName ∧
    ∃ apex, apexOf "home.example.com" = some apex ∧
      splitDots apex.data =
        [(splitDots "home.example.com".data).getD
            ((splitDots "home.example.com".data).length - 2) [],
         (splitDots "home.example.com".data).getD
            ((splitDots "home.example.com".data).length - 1) []] :=
  ⟨ddns_apex_last_two_labels.2.2.1 [] (fun _ => []) "localhost" (by decide),
   ddns_apex_last_two_labels.2.2.2 "home.example.com" (by decide)⟩

/-- C8 counterexample: the claim says a `success == false` response is
an Error carrying the provider's reported error details; in the code the
returned error is the fixed string `"Cloudflare API error"`, identical
for two different `errors` arrays and not containing the detail text. -/
theorem ddns_update_error_is_fixed_message :
    interpretResponse ⟨false, [Json.str "quota exceeded"]⟩ =
      interpretResponse ⟨false, [Json.str "unauthorized"]⟩ ∧
    interpretResponse ⟨false, [Json.str "quota exceeded"]⟩ =
      .error "Cloudflare API error" ∧
    hasSubstr "Cloudflare API error".data "quota".data = false :=
  ⟨rfl, rfl, by decide⟩

/-- C8 amended: the update request body carries exactly record type
`"A"`, the hostname, the probed IP as content, ttl 1 and the configured
proxied flag; the URL is the resolved zone/record path; the call is Ok
iff the parsed response has `success == true`; a `success == false`
response is an Error with the fixed message `"Cloudflare API error"`
(the provider's error details are only logged). -/
theorem ddns_update_request_shape (ip : String) (record : DnsRecord)
    (resp : CloudflareResponse) (zone_id record_id : String) :
    buildUpdateRequest ip record =
      ⟨"A", record.dns_name, ip, 1, record.proxied⟩ ∧
    updateUrl zone_id record_id =
      "https://api.cloudflare.com/client/v4/zones/" ++ zone_id ++
        "/dns_records/" ++ record_id ∧
    (updateResult (.response resp) = .ok () ↔ resp.success = true) ∧
    (resp.success = false →
      updateResult (.response resp) = .error "Cloudflare API error") := by
  refine ⟨rfl, rfl, ?_, ?_⟩
  · cases hs : resp.success <;> simp [updateResult, interpretResponse, hs]
  · intro h
    simp [updateResult, interpretResponse, h]

/-- Witness for C8 (amended) at a concrete request and failed response. -/
theorem ddns_update_request_shape_witness :
    buildUpdateRequest "1.2.3.4" ⟨"home.example.com", true⟩ =
      ⟨"A", "home.example.com", "1.2.3.4", 1, true⟩ ∧
    updateResult (.response ⟨false, []⟩) = .error "Cloudflare API error" :=
  ⟨(ddns_update_request_shape "1.2.3.4" ⟨"home.example.com", true⟩ ⟨false, []⟩
      "z1" "r1").1,
   (ddns_update_request_shape "1.2.3.4" ⟨"home.example.com", true⟩ ⟨false, []⟩
      "z1" "r1").2.2.2 rfl⟩

/-- C9: a successful update for a hostname replaces exactly that
hostname's entry of the state document with the probed IP; every other
key reads the same before and after. -/
theorem ddns_success_frames_state (zoneMap recordMap : List (String × String))
    (upd : String → UpdateOutcome) (ip : String) (st : Json) (r : DnsRecord)
    (hz : (lookupA zoneMap r.dns_name).isSome = true)
    (hr : (lookupA recordMap r.dns_name).isSome = true)
    (hobj : st.isObj = true)
    (hdiff : jsonGetStr st r.dns_name ≠ some ip)
    (hok : updateResult (upd r.dns_name) = .ok ()) :
    ∃ st', processRecord zoneMap recordMap upd ip st r = some (st', true) ∧
      st'.get r.dns_name = some (.str ip) ∧
      ∀ k, k ≠ r.dns_name → st'.get k = st.get k := by
  obtain ⟨m, rfl⟩ := (Json.isObj_iff st).mp hobj
  obtain ⟨zid, hz'⟩ := Option.isSome_iff_exists.mp hz
  obtain ⟨rid, hr'⟩ := Option.isSome_iff_exists.mp hr
  have hstep := processRecord_diff_ok _ _ _ _ _ _ zid rid hdiff hz' hr' hok
  rw [Json.setKey] at hstep
  refine ⟨Json.obj (setAssoc m r.dns_name (.str ip)), by simpa using hstep, ?_, ?_⟩
  · simp [Json.get, getAssoc_setAssoc_self]
  · intro k hk
    simp [Json.get, getAssoc_setAssoc_ne m r.dns_name k _ hk]

/-- Witness for C9: updating `home.example.com` leaves the entry of
`other.example.com` untouched. -/
theorem ddns_success_frames_state_witness :
    ∃ st', processRecord [("home.example.com", "z1")] [("home.example.com", "r1")]
        (fun _ => .response ⟨true, []⟩) "1.2.3.4"
        (Json.obj [("other.example.com", .str "9.9.9.9")])
        ⟨"home.example.com", false⟩ = some (st', true) ∧
      st'.get (DnsRecord.mk "home.example.com" false).dns_name =
        some (.str "1.2.3.4") ∧
      ∀ k, k ≠ (DnsRecord.mk "home.example.com" false).dns_name →
        st'.get k = (Json.obj [("other.example.com", .str "9.9.9.9")]).get k :=
  ddns_success_frames_state [("home.example.com", "z1")]
    [("home.example.com", "r1")] (fun _ => .response ⟨true, []⟩) "1.2.3.4"
    (Json.obj [("other.example.com", .str "9.9.9.9")])
    ⟨"home.example.com", false⟩ rfl rfl rfl (by decide) rfl

/-- C10: `read_last_ips` returns any successfully parsed JSON value
as-is, object or not; and every per-hostname lookup on a non-object
state value yields no last-known IP. -/
theorem ddns_parsed_state_verbatim :
    (∀ (parse : String → Option Json) (data : String) (v : Json),
      parse data = some v → read_last_ips parse (some data) = v) ∧
    ∀ v : Json, v.isObj = false → ∀ k, jsonGetStr v k = none := by
  constructor
  · intro parse data v h
    simp [read_last_ips, h]
  · intro v hv k
    cases v <;> simp_all [Json.isObj, jsonGetStr, Json.get]

/-- Witness for C10: a parsed JSON array is kept verbatim and yields no
last-known IP for any hostname. -/
theorem ddns_parsed_state_verbatim_witness :
    read_last_ips (fun s => if s = "[1]" then some (Json.arr [Json.num 1]) else none)
        (some "[1]") = Json.arr [Json.num 1] ∧
    jsonGetStr (Json.arr [Json.num 1]) "home.example.com" = none :=
  ⟨ddns_parsed_state_verbatim.1 _ "[1]" _ (by simp),
   ddns_parsed_state_verbatim.2 (Json.arr [Json.num 1]) rfl "home.example.com"⟩

end Ddns
